import Mathlib

/-
Shallow embedding of the game-session state machine of the briefjesspel
repository: the server `Game` class (EventEmitter subclass) that tracks
players, teams, entries, turn order, round/turn lifecycle, scoring and the
turn countdown.

Modelling conventions:
- JS Maps that preserve insertion order are embedded as insertion-ordered
  lists keyed by id; JS Arrays are lists.
- Opaque string ids (uuid) are embedded as `Nat`; a nullable id is
  `Option Nat` (the source's ids are nonempty uuid strings, so JS truthiness
  of an id coincides with presence).
- Emitted signals are recorded in an `events` log field; the `save()` call
  inside `emit` only touches the `updatedAt` timestamp (and a persistence
  TODO), which is outside the model.
- The `setInterval` handle installed by `_startTimer` is modelled by a
  `timerActive` flag; one firing of the interval callback is the `tick`
  step. `clearInterval` resets the flag.
- The external `shuffle` utility (lib/shuffle, an in-place permutation) is a
  parameter `sh : ShuffleFn`; theorems that need it assume `ShuffleOK sh`
  (it permutes its input).
- Several places of the source read the `size` property of a JS Array
  (Arrays expose `length`, not `size`, so the read yields `undefined`) or
  run a `for...in` loop over a Map iterator (which has no enumerable
  properties, so the body never runs). These are embedded faithfully via
  the `js*` helpers below and noted at each definition.
-/

namespace Briefjesspel

/-- Read of the `size` property of a JS Array value: JavaScript Arrays
expose `length`, not `size`, so the property read evaluates to `undefined`,
embedded as `none`. (`Map.size` is a real number and is embedded as the
length of the backing list instead.) -/
def jsArraySize {α : Type} (_a : List α) : Option Nat := none

/-- JS truthiness of a value that is `undefined` (`none`) or a number:
`undefined` and `0` are falsy. -/
def jsTruthyNum : Option Nat → Bool
  | none => false
  | some n => n != 0

/-- JS comparison `x > n` where `x` is `undefined` or a number:
`undefined > n` is `false` (NaN comparison). -/
def jsGtNum : Option Nat → Nat → Bool
  | none, _ => false
  | some m, n => n < m

/-- JS strict equality `x === n` where `x` is `undefined` or a number:
`undefined === n` is `false`. -/
def jsStrictEqNum : Option Nat → Nat → Bool
  | none, _ => false
  | some m, n => m == n

/-- Modelled from the spec: the Player record (the server `User` model is
not among the sources; only its uses in the `Game` class are). Identity,
display name (optional until set, the empty string standing for the falsy
unset value), font preference, nullable team assignment, the ordered list
of submitted entries, and the cached readiness flag. -/
structure User where
  id : Nat
  name : String := ""
  font : String := ""
  teamId : Option Nat := none
  entries : List String := []
  isReady : Bool := false
deriving Repr, DecidableEq

/-- Modelled from the spec: the Team record (the server `Team` model is not
among the sources). Identity, display name, cumulative score. -/
structure Team where
  id : Nat
  name : String := ""
  score : Nat := 0
deriving Repr, DecidableEq

/-- One element of `turnOrder`: a team id paired with the ordered sequence
of that team's player ids (source: the object literals pushed in
`_randomizeTurnOrder`). -/
structure TurnOrderEntry where
  teamId : Nat
  players : List Nat
deriving Repr, DecidableEq

/-- The named signals the `Game` emits (payload objects are reduced to the
relevant id). -/
inductive Ev where
  | playerAdded (userId : Nat)
  | playerNameSet (userId : Nat)
  | playerFontSet (userId : Nat)
  | playerLeft (userId : Nat)
  | playerRemoved (userId : Nat)
  | entriesPerPlayerUpdated
  | playerReady (userId : Nat)
  | teamAdded (teamId : Nat)
  | playerAddedToTeam (userId : Nat)
  | teamRemoved (teamId : Nat)
  | turnTimeUpdated
  | started
  | roundStarted
  | turnStarted
  | nextEntry
  | turnFinished
  | nextTurn
  | roundFinished
  | nextRound
  | finished
  | teamScored (teamId : Nat)
deriving Repr, DecidableEq

/-- The `Game` state (constructor fields, lines 7-44 of the source; the
pure identifiers `id`/`path` and the timestamps are omitted, no claim
mentions them). Field defaults are the constructor defaults. -/
structure Game where
  master : Option Nat := none
  players : List User := []
  removedPlayers : List Nat := []
  teams : List Team := []
  entriesPerPlayer : Nat := 0
  entries : List String := []
  turnOrder : List TurnOrderEntry := []
  isStarted : Bool := false
  isFinished : Bool := false
  turnTime : Int := 0
  scorePerEntry : Nat := 1
  entriesRemaining : List String := []
  roundStarted : Bool := false
  roundFinished : Bool := false
  turnStarted : Bool := false
  turnFinished : Bool := false
  turnTimeLeft : Int := 0
  timerActive : Bool := false
  events : List Ev := []
deriving Repr, DecidableEq

/-- Type of the external in-place shuffle utility. -/
abbrev ShuffleFn := {α : Type} → List α → List α

/-- Contract the spec demands of the shuffle utility: it permutes its
input. -/
def ShuffleOK (sh : ShuffleFn) : Prop :=
  ∀ (α : Type) (l : List α), List.Perm (@sh α l) l

/-- The identity function satisfies the shuffle contract; used to
instantiate theorems at concrete inputs. -/
def idShuffle : ShuffleFn := fun l => l

theorem shuffleOK_id : ShuffleOK idShuffle := fun _ l => List.Perm.refl l

namespace Game

/-- Getter `canStart` (lines 49-52): not started yet, and every player has
`isReady` and a truthy `teamId`. -/
def canStart (g : Game) : Bool :=
  !g.isStarted && g.players.all (fun u => u.isReady && u.teamId.isSome)

/-- Getter `canStartRound` (lines 54-56). -/
def canStartRound (g : Game) : Bool :=
  g.isStarted && !g.roundStarted && (g.turnTime != 0) && (g.scorePerEntry != 0)

/-- Getter `canStartTurn` (lines 58-60): reads `this.entriesRemaining.size`,
but `entriesRemaining` is an Array, so the read is `undefined` and falsy. -/
def canStartTurn (g : Game) : Bool :=
  g.roundStarted && !g.turnStarted && jsTruthyNum (jsArraySize g.entriesRemaining)

/-- Getter `activeTeam` (lines 62-64): `this.turnOrder.size ?
this.turnOrder[0].teamId : null`, where `turnOrder` is an Array, so the
condition reads `undefined`. -/
def activeTeam (g : Game) : Option Nat :=
  if jsTruthyNum (jsArraySize g.turnOrder) then
    (g.turnOrder[0]?).map TurnOrderEntry.teamId
  else none

/-- Getter `activePlayer` (lines 66-68): same `turnOrder.size` condition;
`players[0]` of an empty Array would be `undefined`. -/
def activePlayer (g : Game) : Option Nat :=
  if jsTruthyNum (jsArraySize g.turnOrder) then
    (g.turnOrder[0]?).bind (fun t => t.players[0]?)
  else none

/-- Getter `nextTeam` (lines 70-72): `this.turnOrder.size > 1 ? ... : null`. -/
def nextTeam (g : Game) : Option Nat :=
  if jsGtNum (jsArraySize g.turnOrder) 1 then
    (g.turnOrder[1]?).map TurnOrderEntry.teamId
  else none

/-- Getter `nextPlayer` (lines 74-76). -/
def nextPlayer (g : Game) : Option Nat :=
  if jsGtNum (jsArraySize g.turnOrder) 1 then
    (g.turnOrder[1]?).bind (fun t => t.players[0]?)
  else none

/-- Getter `activeEntry` (lines 78-81): top of the stack is the last
element (this getter correctly uses `length`). -/
def activeEntry (g : Game) : Option String :=
  g.entriesRemaining.getLast?

/-- The overridden `emit` (lines 406-411): records the signal in the
observable log (the `save()` it also performs only touches the omitted
`updatedAt` timestamp). -/
def emit (g : Game) (e : Ev) : Game :=
  { g with events := g.events ++ [e] }

/-- In-place mutation of the user object obtained from the `players` Map,
as performed by `setPlayerName`, `setFont`, `addPlayerToTeam`, `addEntry`
and `_checkPlayerReady`. -/
def updPlayer (g : Game) (userId : Nat) (f : User → User) : Game :=
  { g with players := g.players.map (fun u => if u.id == userId then f u else u) }

/-- `_playerIsReady` (lines 276-278): `user.name && this.entriesPerPlayer
&& user.entries.size === this.entriesPerPlayer`. The `entries` list of a
user is an Array, so `user.entries.size` is `undefined`. -/
def _playerIsReady (g : Game) (u : User) : Bool :=
  (u.name != "") && (g.entriesPerPlayer != 0)
    && jsStrictEqNum (jsArraySize u.entries) g.entriesPerPlayer

/-- `_checkPlayerReady` (lines 280-285): latch `isReady` and emit
`playerReady` once, if the player just became ready. -/
def _checkPlayerReady (g : Game) (userId : Nat) : Game :=
  match g.players.find? (fun u => u.id == userId) with
  | none => g
  | some u =>
    if !u.isReady && g._playerIsReady u then
      (g.updPlayer userId (fun v => { v with isReady := true })).emit (Ev.playerReady userId)
    else g

/-- `addPlayer` (lines 86-96): only the `players` Map is consulted for the
duplicate check; `removedPlayers` is not. -/
def addPlayer (g : Game) (user : User) (isMaster : Bool) : Game :=
  if !(g.players.any (fun u => u.id == user.id)) then
    let g1 : Game := { g with players := g.players ++ [user] }
    let g2 : Game := if isMaster then { g1 with master := some user.id } else g1
    g2.emit (Ev.playerAdded user.id)
  else g

/-- `setPlayerName` (lines 98-107). -/
def setPlayerName (g : Game) (userId : Nat) (name : String) : Game :=
  if g.players.any (fun u => u.id == userId) then
    (((g.updPlayer userId (fun u => { u with name := name })).emit
      (Ev.playerNameSet userId))._checkPlayerReady userId)
  else g

/-- `setFont` (lines 109-116). -/
def setFont (g : Game) (userId : Nat) (font : String) : Game :=
  if g.players.any (fun u => u.id == userId) then
    (g.updPlayer userId (fun u => { u with font := font })).emit (Ev.playerFontSet userId)
  else g

/-- `removePlayer` (lines 118-137): the guard compares `this.activePlayer`
(the getter above) to `userId`; the player is dropped from the registry and
from every `turnOrder` rotation list; the master is reassigned to the first
remaining player; forced removals are recorded in `removedPlayers`. -/
def removePlayer (g : Game) (userId : Nat) (byHimself : Bool) : Game :=
  if g.players.any (fun u => u.id == userId) && !(g.activePlayer == some userId) then
    let g1 : Game := { g with players := g.players.filter (fun u => !(u.id == userId)) }
    let g2 : Game :=
      { g1 with turnOrder :=
          g1.turnOrder.map (fun t => { t with players := t.players.filter (fun i => !(i == userId)) }) }
    let g3 : Game :=
      if (g2.master == some userId) && (g2.players.length != 0) then
        { g2 with master := (g2.players.head?).map User.id }
      else g2
    if byHimself then g3.emit (Ev.playerLeft userId)
    else
      ({ g3 with removedPlayers :=
          if g3.removedPlayers.contains userId then g3.removedPlayers
          else g3.removedPlayers ++ [userId] }).emit (Ev.playerRemoved userId)
  else g

/-- `setEntriesPerPlayer` (lines 139-143): no guard, no readiness
re-evaluation. -/
def setEntriesPerPlayer (g : Game) (n : Nat) : Game :=
  ({ g with entriesPerPlayer := n }).emit Ev.entriesPerPlayerUpdated

/-- `addEntry` (lines 145-152): append to the player's private list, then
re-check readiness; emits nothing of its own. -/
def addEntry (g : Game) (userId : Nat) (entry : String) : Game :=
  if g.players.any (fun u => u.id == userId) then
    ((g.updPlayer userId (fun u => { u with entries := u.entries ++ [entry] }))._checkPlayerReady userId)
  else g

/-- `addTeam` (lines 154-158): unconditional `Map.set`. -/
def addTeam (g : Game) (team : Team) : Game :=
  let g1 : Game :=
    if g.teams.any (fun t => t.id == team.id) then
      { g with teams := g.teams.map (fun t => if t.id == team.id then team else t) }
    else { g with teams := g.teams ++ [team] }
  g1.emit (Ev.teamAdded team.id)

/-- `addPlayerToTeam` (lines 160-167). -/
def addPlayerToTeam (g : Game) (userId teamId : Nat) : Game :=
  if g.players.any (fun u => u.id == userId) && g.teams.any (fun t => t.id == teamId) then
    (g.updPlayer userId (fun u => { u with teamId := some teamId })).emit (Ev.playerAddedToTeam userId)
  else g

/-- `removeTeam` (lines 169-181): the `for (const user in
this._playersForTeam(teamId))` loop is `for...in` over an Array, so it
yields index strings and the assignment `user.teamId = null` has no effect
on the player records: team assignments are not cleared. -/
def removeTeam (g : Game) (teamId : Nat) : Game :=
  if g.teams.any (fun t => t.id == teamId) && !(g.activeTeam == some teamId) then
    let g1 : Game := { g with teams := g.teams.filter (fun t => !(t.id == teamId)) }
    let g2 : Game := { g1 with turnOrder := g1.turnOrder.filter (fun t => !(t.teamId == teamId)) }
    g2.emit (Ev.teamRemoved teamId)
  else g

/-- `setTurnTime` (lines 183-187). -/
def setTurnTime (g : Game) (t : Int) : Game :=
  ({ g with turnTime := t }).emit Ev.turnTimeUpdated

/-- `_fillEntries` (lines 287-295): `for (const user in
this.players.values())` is `for...in` over a Map iterator object, which
has no enumerable properties, so the body never runs and the master
`entries` list is left unchanged. -/
def _fillEntries (g : Game) : Game := g

/-- `_randomizeTurnOrder` (lines 302-313): the queue is reset to `[]`; the
`for (const team in this.teams.values())` loop is `for...in` over a Map
iterator and never runs; finally the (empty) queue is shuffled in place. -/
def _randomizeTurnOrder (g : Game) (sh : ShuffleFn) : Game :=
  { g with turnOrder := sh ([] : List TurnOrderEntry) }

/-- `_randomizeEntries` (lines 315-318): the remaining stack becomes a
shuffled copy of the full master `entries` list. -/
def _randomizeEntries (g : Game) (sh : ShuffleFn) : Game :=
  { g with entriesRemaining := sh g.entries }

/-- `_startTimer` (lines 320-330): installs the 1-Hz interval; the firings
of its callback are the `tick` step below. -/
def _startTimer (g : Game) : Game :=
  { g with timerActive := true }

/-- `Map.get` on the `teams` Map with a possibly-null key (no null key is
ever inserted, so `get(null)` is `undefined`). -/
def teamsGet (g : Game) (k : Option Nat) : Option Team :=
  match k with
  | none => none
  | some tid => g.teams.find? (fun t => t.id == tid)

/-- `_score` (lines 332-339): look up the active team and award
`scorePerEntry`, emitting `teamScored`; silently skip when the lookup finds
nothing. -/
def _score (g : Game) : Game :=
  match g.teamsGet g.activeTeam with
  | some team =>
    ({ g with teams :=
        g.teams.map (fun (t : Team) =>
          if t.id == team.id then { t with score := t.score + g.scorePerEntry } else t) }).emit
      (Ev.teamScored team.id)
  | none => g

/-- `_shiftTurn` (lines 341-345): `const team = this.turnOrder.shift();
team.push(team.players.shift()); this.turnOrder.push(team)`. `team` is the
plain object `\x7b teamId, players \x7d`, which has no `push` method, so the
middle call throws a TypeError (after its argument `team.players.shift()`
has already been evaluated); on an empty queue, `shift()` returns
`undefined` and reading `.players` throws. Either way the `shift()` on the
queue has already happened and persists, and the final `push` never runs. -/
def _shiftTurn (g : Game) : Game × Option String :=
  match g.turnOrder with
  | [] => (g, some "TypeError: Cannot read properties of undefined (reading players)")
  | _ :: rest => ({ g with turnOrder := rest }, some "TypeError: team.push is not a function")

/-- `finishRound` (lines 252-257): clear the interval, mark the round
finished. -/
def finishRound (g : Game) : Game :=
  ({ g with timerActive := false, roundFinished := true }).emit Ev.roundFinished

/-- `nextEntry` (lines 223-232): score, pop the stack (`pop` removes the
last element), then branch on `this.entriesRemaining.size` - an Array
property read yielding `undefined`, hence always the `finishRound` branch. -/
def nextEntry (g : Game) : Game :=
  let g1 : Game := g._score
  let g2 : Game := { g1 with entriesRemaining := g1.entriesRemaining.dropLast }
  if jsTruthyNum (jsArraySize g2.entriesRemaining) then g2.emit Ev.nextEntry
  else g2.finishRound

/-- `finishTurn` (lines 234-240): no guard, no `clearInterval`; mark the
turn finished, repopulate the remaining stack from the master list, emit. -/
def finishTurn (g : Game) (sh : ShuffleFn) : Game :=
  (({ g with turnFinished := true })._randomizeEntries sh).emit Ev.turnFinished

/-- One firing of the interval callback installed by `_startTimer` (lines
321-329): decrement `turnTimeLeft`; when the decremented value is exactly
0, clear the interval and call `finishTurn`. Fires only while the interval
is pending. -/
def tick (g : Game) (sh : ShuffleFn) : Game :=
  if g.timerActive then
    let g1 : Game := { g with turnTimeLeft := g.turnTimeLeft - 1 }
    if g1.turnTimeLeft == 0 then ({ g1 with timerActive := false }).finishTurn sh
    else g1
  else g

/-- `nextTurn` (lines 242-250): `_shiftTurn` first; since that always
throws, the flag resets and the `nextTurn` signal are unreachable, and the
exception propagates to the caller with the queue already shifted. -/
def nextTurn (g : Game) : Game × Option String :=
  match g._shiftTurn with
  | (g1, some e) => (g1, some e)
  | (g1, none) =>
    (({ g1 with turnStarted := false, turnFinished := false,
                turnTimeLeft := g1.turnTime }).emit Ev.nextTurn, none)

/-- `startRound` (lines 201-211). -/
def startRound (g : Game) (sh : ShuffleFn) : Game :=
  if g.canStartRound then
    ({ (g._randomizeTurnOrder sh)._randomizeEntries sh with
        turnTimeLeft := g.turnTime, roundStarted := true }).emit Ev.roundStarted
  else g

/-- `startTurn` (lines 213-221). -/
def startTurn (g : Game) : Game :=
  if g.canStartTurn then
    ({ g._startTimer with turnStarted := true }).emit Ev.turnStarted
  else g

/-- `start` (lines 189-199): guard on `canStart`, materialize entries, set
`isStarted`, emit, then auto-trigger `startRound`. -/
def start (g : Game) (sh : ShuffleFn) : Game :=
  if g.canStart then
    ((({ g._fillEntries with isStarted := true }).emit Ev.started).startRound sh)
  else g

/-- `nextRound` (lines 259-265). -/
def nextRound (g : Game) : Game :=
  ({ g with roundStarted := false, roundFinished := false,
            turnTimeLeft := g.turnTime }).emit Ev.nextRound

/-- `finish` (lines 267-271). -/
def finish (g : Game) : Game :=
  ({ g with isFinished := true }).emit Ev.finished

/-- A freshly constructed session, `new Game()` with no rehydration data. -/
def init : Game := {}

end Game

/-- The commands external collaborators can send to a session, plus the
autonomous timer firing. -/
inductive Cmd where
  | addPlayer (u : User) (isMaster : Bool)
  | setPlayerName (userId : Nat) (name : String)
  | setFont (userId : Nat) (font : String)
  | removePlayer (userId : Nat) (byHimself : Bool)
  | setEntriesPerPlayer (n : Nat)
  | addEntry (userId : Nat) (entry : String)
  | addTeam (t : Team)
  | addPlayerToTeam (userId teamId : Nat)
  | removeTeam (teamId : Nat)
  | setTurnTime (t : Int)
  | start
  | startRound
  | startTurn
  | nextEntry
  | finishTurn
  | nextTurn
  | finishRound
  | nextRound
  | finish
  | tick

/-- Apply one command to the session (for `nextTurn`, the session state as
mutated up to the point the TypeError escapes). -/
def applyCmd (sh : ShuffleFn) (g : Game) : Cmd → Game
  | Cmd.addPlayer u m => g.addPlayer u m
  | Cmd.setPlayerName i n => g.setPlayerName i n
  | Cmd.setFont i f => g.setFont i f
  | Cmd.removePlayer i b => g.removePlayer i b
  | Cmd.setEntriesPerPlayer n => g.setEntriesPerPlayer n
  | Cmd.addEntry i e => g.addEntry i e
  | Cmd.addTeam t => g.addTeam t
  | Cmd.addPlayerToTeam i t => g.addPlayerToTeam i t
  | Cmd.removeTeam t => g.removeTeam t
  | Cmd.setTurnTime t => g.setTurnTime t
  | Cmd.start => g.start sh
  | Cmd.startRound => g.startRound sh
  | Cmd.startTurn => g.startTurn
  | Cmd.nextEntry => g.nextEntry
  | Cmd.finishTurn => g.finishTurn sh
  | Cmd.nextTurn => (g.nextTurn).1
  | Cmd.finishRound => g.finishRound
  | Cmd.nextRound => g.nextRound
  | Cmd.finish => g.finish
  | Cmd.tick => g.tick sh

/-- Run a command sequence against a fresh session: the reachable states. -/
def run (sh : ShuffleFn) (cmds : List Cmd) : Game :=
  cmds.foldl (fun g c => applyCmd sh g c) Game.init

/-- The id column of the player registry. -/
def ids (g : Game) : List Nat := g.players.map User.id

/-- The cached readiness flag of the registered player with the given id. -/
def readyOf (g : Game) (i : Nat) : Option Bool :=
  (g.players.find? (fun u => u.id == i)).map User.isReady

/-! Basic consequences of the Array `size` reads. -/

theorem activeTeam_none (g : Game) : g.activeTeam = none := by
  simp [Game.activeTeam, jsArraySize, jsTruthyNum]

theorem activePlayer_none (g : Game) : g.activePlayer = none := by
  simp [Game.activePlayer, jsArraySize, jsTruthyNum]

theorem score_eq (g : Game) : g._score = g := by
  unfold Game._score
  simp [Game.teamsGet, activeTeam_none]

theorem playerIsReady_false (g : Game) (u : User) : g._playerIsReady u = false := by
  simp [Game._playerIsReady, jsStrictEqNum, jsArraySize]

theorem checkPlayerReady_eq (g : Game) (i : Nat) : g._checkPlayerReady i = g := by
  unfold Game._checkPlayerReady
  cases h : g.players.find? (fun u => u.id == i) with
  | none => rfl
  | some u => simp [playerIsReady_false]

/-! The player registry is untouched by the lifecycle operations. -/

theorem players_emit (g : Game) (e : Ev) : (g.emit e).players = g.players := rfl

theorem players_startRound (g : Game) (sh : ShuffleFn) :
    (g.startRound sh).players = g.players := by
  unfold Game.startRound Game._randomizeTurnOrder Game._randomizeEntries Game.emit
  split <;> rfl

theorem players_start (g : Game) (sh : ShuffleFn) : (g.start sh).players = g.players := by
  unfold Game.start Game._fillEntries Game.emit Game.canStart
  split
  · rw [players_startRound]
  · rfl

theorem players_startTurn (g : Game) : g.startTurn.players = g.players := by
  unfold Game.startTurn Game._startTimer Game.emit
  split <;> rfl

theorem players_finishRound (g : Game) : g.finishRound.players = g.players := rfl

theorem players_nextEntry (g : Game) : g.nextEntry.players = g.players := by
  unfold Game.nextEntry
  rw [score_eq]
  simp only [jsArraySize, jsTruthyNum, Bool.false_eq_true, if_false]
  rfl

theorem players_finishTurn (g : Game) (sh : ShuffleFn) :
    (g.finishTurn sh).players = g.players := rfl

theorem players_tick (g : Game) (sh : ShuffleFn) : (g.tick sh).players = g.players := by
  unfold Game.tick
  split
  · dsimp only
    split
    · rw [players_finishTurn]
    · rfl
  · rfl

theorem players_nextTurn (g : Game) : (g.nextTurn).1.players = g.players := by
  unfold Game.nextTurn Game._shiftTurn
  cases g.turnOrder <;> rfl

theorem players_setEntriesPerPlayer (g : Game) (n : Nat) :
    (g.setEntriesPerPlayer n).players = g.players := rfl

theorem players_addTeam (g : Game) (t : Team) : (g.addTeam t).players = g.players := by
  unfold Game.addTeam Game.emit
  split <;> rfl

theorem players_removeTeam (g : Game) (tid : Nat) :
    (g.removeTeam tid).players = g.players := by
  unfold Game.removeTeam Game.emit
  split <;> rfl

theorem players_setTurnTime (g : Game) (t : Int) :
    (g.setTurnTime t).players = g.players := rfl

theorem players_nextRound (g : Game) : g.nextRound.players = g.players := rfl

theorem players_finish (g : Game) : g.finish.players = g.players := rfl

/-! List helper lemmas for the registry invariants. -/

theorem find?_map_pres {p : User → Bool} {f : User → User}
    (hpf : ∀ u, p (f u) = p u) (l : List User) :
    (l.map f).find? p = (l.find? p).map f := by
  rw [List.find?_map]
  have h : p ∘ f = p := funext hpf
  rw [h]

theorem find?_append_some {p : User → Bool} {l1 : List User} {x : User}
    (h : l1.find? p = some x) (l2 : List User) : (l1 ++ l2).find? p = some x := by
  rw [List.find?_append, h]
  rfl

theorem find?_filter_of_imp {p q : User → Bool}
    (hpq : ∀ u, p u = true → q u = true) (l : List User) :
    (l.filter q).find? p = l.find? p := by
  induction l with
  | nil => rfl
  | cons a t ih =>
    by_cases hq : q a = true
    · rw [List.filter_cons_of_pos hq]
      by_cases hp : p a = true
      · rw [List.find?_cons_of_pos _ hp, List.find?_cons_of_pos _ hp]
      · rw [List.find?_cons_of_neg _ hp, List.find?_cons_of_neg _ hp]
        exact ih
    · have hp : ¬ p a = true := fun h => hq (hpq a h)
      rw [List.filter_cons_of_neg hq, List.find?_cons_of_neg _ hp]
      exact ih

theorem find?_filter_none {p q : User → Bool}
    (hpq : ∀ u, p u = true → q u = false) (l : List User) :
    (l.filter q).find? p = none := by
  induction l with
  | nil => rfl
  | cons a t ih =>
    by_cases hq : q a = true
    · have hp : ¬ p a = true := fun h => by
        rw [hpq a h] at hq
        exact Bool.false_ne_true hq
      rw [List.filter_cons_of_pos hq, List.find?_cons_of_neg _ hp]
      exact ih
    · rw [List.filter_cons_of_neg hq]
      exact ih

/-! Registry projections under the player-touching operations. -/

theorem readyOf_congr {h g : Game} (hp : h.players = g.players) (i : Nat) :
    readyOf h i = readyOf g i := by
  unfold readyOf
  rw [hp]

theorem ids_congr {h g : Game} (hp : h.players = g.players) : ids h = ids g := by
  unfold ids
  rw [hp]

theorem readyOf_updPlayer (g : Game) (pid : Nat) (f : User → User)
    (hid : ∀ u, (f u).id = u.id) (hr : ∀ u, (f u).isReady = u.isReady) (i : Nat) :
    readyOf (g.updPlayer pid f) i = readyOf g i := by
  have hpf : ∀ u : User, ((if u.id == pid then f u else u).id == i) = (u.id == i) := by
    intro u
    by_cases hc : u.id = pid
    · simp [hc, hid]
    · simp [hc]
  unfold readyOf Game.updPlayer
  dsimp only
  rw [find?_map_pres hpf]
  cases g.players.find? (fun u => u.id == i) with
  | none => rfl
  | some u =>
    by_cases hc : u.id = pid
    · simp [hc, hr]
    · simp [hc]

theorem ids_updPlayer (g : Game) (pid : Nat) (f : User → User)
    (hid : ∀ u, (f u).id = u.id) :
    ids (g.updPlayer pid f) = ids g := by
  unfold ids Game.updPlayer
  dsimp only
  rw [List.map_map]
  apply List.map_congr_left
  intro a _
  by_cases hc : a.id = pid
  · simp [hc, hid]
  · simp [hc]

theorem readyOf_setPlayerName (g : Game) (uid : Nat) (n : String) (i : Nat) :
    readyOf (g.setPlayerName uid n) i = readyOf g i := by
  unfold Game.setPlayerName
  split
  · rw [checkPlayerReady_eq, readyOf_congr (players_emit _ _),
        readyOf_updPlayer g uid (fun u => { u with name := n })
          (fun u => rfl) (fun u => rfl) i]
  · rfl

theorem ids_setPlayerName (g : Game) (uid : Nat) (n : String) :
    ids (g.setPlayerName uid n) = ids g := by
  unfold Game.setPlayerName
  split
  · rw [checkPlayerReady_eq, ids_congr (players_emit _ _),
        ids_updPlayer g uid (fun u => { u with name := n }) (fun u => rfl)]
  · rfl

theorem readyOf_setFont (g : Game) (uid : Nat) (fo : String) (i : Nat) :
    readyOf (g.setFont uid fo) i = readyOf g i := by
  unfold Game.setFont
  split
  · rw [readyOf_congr (players_emit _ _),
        readyOf_updPlayer g uid (fun u => { u with font := fo })
          (fun u => rfl) (fun u => rfl) i]
  · rfl

theorem ids_setFont (g : Game) (uid : Nat) (fo : String) :
    ids (g.setFont uid fo) = ids g := by
  unfold Game.setFont
  split
  · rw [ids_congr (players_emit _ _),
        ids_updPlayer g uid (fun u => { u with font := fo }) (fun u => rfl)]
  · rfl

theorem readyOf_addEntry (g : Game) (uid : Nat) (e : String) (i : Nat) :
    readyOf (g.addEntry uid e) i = readyOf g i := by
  unfold Game.addEntry
  split
  · rw [checkPlayerReady_eq,
        readyOf_updPlayer g uid (fun u => { u with entries := u.entries ++ [e] })
          (fun u => rfl) (fun u => rfl) i]
  · rfl

theorem ids_addEntry (g : Game) (uid : Nat) (e : String) :
    ids (g.addEntry uid e) = ids g := by
  unfold Game.addEntry
  split
  · rw [checkPlayerReady_eq,
        ids_updPlayer g uid (fun u => { u with entries := u.entries ++ [e] }) (fun u => rfl)]
  · rfl

theorem readyOf_addPlayerToTeam (g : Game) (uid tid : Nat) (i : Nat) :
    readyOf (g.addPlayerToTeam uid tid) i = readyOf g i := by
  unfold Game.addPlayerToTeam
  split
  · rw [readyOf_congr (players_emit _ _),
        readyOf_updPlayer g uid (fun u => { u with teamId := some tid })
          (fun u => rfl) (fun u => rfl) i]
  · rfl

theorem ids_addPlayerToTeam (g : Game) (uid tid : Nat) :
    ids (g.addPlayerToTeam uid tid) = ids g := by
  unfold Game.addPlayerToTeam
  split
  · rw [ids_congr (players_emit _ _),
        ids_updPlayer g uid (fun u => { u with teamId := some tid }) (fun u => rfl)]
  · rfl

theorem players_addPlayer (g : Game) (u : User) (m : Bool) :
    (g.addPlayer u m).players = g.players ∨
    ((g.players.any (fun v => v.id == u.id)) = false ∧
      (g.addPlayer u m).players = g.players ++ [u]) := by
  unfold Game.addPlayer
  split
  · right
    constructor
    · rename_i hg
      cases hv : g.players.any (fun v => v.id == u.id) with
      | false => rfl
      | true => rw [hv] at hg; exact absurd hg (by decide)
    · dsimp only
      split <;> rfl
  · left; rfl

theorem players_removePlayer (g : Game) (uid : Nat) (b : Bool) :
    (g.removePlayer uid b).players = g.players ∨
    (g.removePlayer uid b).players = g.players.filter (fun u => !(u.id == uid)) := by
  unfold Game.removePlayer
  split
  · right
    dsimp only
    split <;> split <;> rfl
  · left; rfl

/-! Per-command preservation of the registry invariants. -/

theorem readyOf_step (sh : ShuffleFn) (c : Cmd) (g : Game) (i : Nat)
    (h : readyOf g i = some true) :
    readyOf (applyCmd sh g c) i = some true ∨ readyOf (applyCmd sh g c) i = none := by
  cases c with
  | addPlayer u m =>
    rcases players_addPlayer g u m with hp | ⟨hany, hp⟩
    · left
      simp only [applyCmd]
      rw [readyOf_congr hp]
      exact h
    · left
      simp only [applyCmd]
      unfold readyOf at h ⊢
      rw [hp]
      obtain ⟨u0, hf, hr⟩ := Option.map_eq_some'.mp h
      rw [find?_append_some hf]
      simp [hr]
  | removePlayer uid b =>
    rcases players_removePlayer g uid b with hp | hp
    · left
      simp only [applyCmd]
      rw [readyOf_congr hp]
      exact h
    · by_cases hiu : i = uid
      · right
        have hpq : ∀ u : User, (u.id == i) = true → (!(u.id == uid)) = false := by
          intro u hu
          rw [← hiu, hu]
          rfl
        simp only [applyCmd]
        unfold readyOf
        rw [hp, find?_filter_none hpq]
        rfl
      · left
        have hpq : ∀ u : User, (u.id == i) = true → (!(u.id == uid)) = true := by
          intro u hu
          have hui : u.id = i := by simpa using hu
          simp [hui, hiu]
        simp only [applyCmd]
        unfold readyOf at h ⊢
        rw [hp, find?_filter_of_imp hpq]
        exact h
  | setPlayerName uid n =>
    left
    simp only [applyCmd]
    rw [readyOf_setPlayerName]
    exact h
  | setFont uid fo =>
    left
    simp only [applyCmd]
    rw [readyOf_setFont]
    exact h
  | addEntry uid e =>
    left
    simp only [applyCmd]
    rw [readyOf_addEntry]
    exact h
  | addPlayerToTeam uid tid =>
    left
    simp only [applyCmd]
    rw [readyOf_addPlayerToTeam]
    exact h
  | setEntriesPerPlayer n =>
    left
    simp only [applyCmd]
    rw [readyOf_congr (players_setEntriesPerPlayer g n)]
    exact h
  | addTeam t =>
    left
    simp only [applyCmd]
    rw [readyOf_congr (players_addTeam g t)]
    exact h
  | removeTeam tid =>
    left
    simp only [applyCmd]
    rw [readyOf_congr (players_removeTeam g tid)]
    exact h
  | setTurnTime t =>
    left
    simp only [applyCmd]
    rw [readyOf_congr (players_setTurnTime g t)]
    exact h
  | start =>
    left
    simp only [applyCmd]
    rw [readyOf_congr (players_start g sh)]
    exact h
  | startRound =>
    left
    simp only [applyCmd]
    rw [readyOf_congr (players_startRound g sh)]
    exact h
  | startTurn =>
    left
    simp only [applyCmd]
    rw [readyOf_congr (players_startTurn g)]
    exact h
  | nextEntry =>
    left
    simp only [applyCmd]
    rw [readyOf_congr (players_nextEntry g)]
    exact h
  | finishTurn =>
    left
    simp only [applyCmd]
    rw [readyOf_congr (players_finishTurn g sh)]
    exact h
  | nextTurn =>
    left
    simp only [applyCmd]
    rw [readyOf_congr (players_nextTurn g)]
    exact h
  | finishRound =>
    left
    simp only [applyCmd]
    rw [readyOf_congr (players_finishRound g)]
    exact h
  | nextRound =>
    left
    simp only [applyCmd]
    rw [readyOf_congr (players_nextRound g)]
    exact h
  | finish =>
    left
    simp only [applyCmd]
    rw [readyOf_congr (players_finish g)]
    exact h
  | tick =>
    left
    simp only [applyCmd]
    rw [readyOf_congr (players_tick g sh)]
    exact h

theorem ids_step (sh : ShuffleFn) (c : Cmd) (g : Game) (h : (ids g).Nodup) :
    (ids (applyCmd sh g c)).Nodup := by
  cases c with
  | addPlayer u m =>
    rcases players_addPlayer g u m with hp | ⟨hany, hp⟩
    · simp only [applyCmd]
      rw [ids_congr hp]
      exact h
    · simp only [applyCmd]
      unfold ids at h ⊢
      rw [hp, List.map_append, List.nodup_append]
      refine ⟨h, List.nodup_singleton _, ?_⟩
      intro a ha hb
      rw [List.map_singleton, List.mem_singleton] at hb
      subst hb
      rw [List.mem_map] at ha
      obtain ⟨v, hv, hvid⟩ := ha
      have hvt : g.players.any (fun v => v.id == u.id) = true :=
        List.any_eq_true.mpr ⟨v, hv, by simp [hvid]⟩
      rw [hvt] at hany
      exact absurd hany (by decide)
  | removePlayer uid b =>
    rcases players_removePlayer g uid b with hp | hp
    · simp only [applyCmd]
      rw [ids_congr hp]
      exact h
    · simp only [applyCmd]
      unfold ids at h ⊢
      rw [hp]
      exact List.Nodup.sublist (List.Sublist.map User.id (List.filter_sublist g.players)) h
  | setPlayerName uid n =>
    simp only [applyCmd]
    rw [ids_setPlayerName]
    exact h
  | setFont uid fo =>
    simp only [applyCmd]
    rw [ids_setFont]
    exact h
  | addEntry uid e =>
    simp only [applyCmd]
    rw [ids_addEntry]
    exact h
  | addPlayerToTeam uid tid =>
    simp only [applyCmd]
    rw [ids_addPlayerToTeam]
    exact h
  | setEntriesPerPlayer n =>
    simp only [applyCmd]
    rw [ids_congr (players_setEntriesPerPlayer g n)]
    exact h
  | addTeam t =>
    simp only [applyCmd]
    rw [ids_congr (players_addTeam g t)]
    exact h
  | removeTeam tid =>
    simp only [applyCmd]
    rw [ids_congr (players_removeTeam g tid)]
    exact h
  | setTurnTime t =>
    simp only [applyCmd]
    rw [ids_congr (players_setTurnTime g t)]
    exact h
  | start =>
    simp only [applyCmd]
    rw [ids_congr (players_start g sh)]
    exact h
  | startRound =>
    simp only [applyCmd]
    rw [ids_congr (players_startRound g sh)]
    exact h
  | startTurn =>
    simp only [applyCmd]
    rw [ids_congr (players_startTurn g)]
    exact h
  | nextEntry =>
    simp only [applyCmd]
    rw [ids_congr (players_nextEntry g)]
    exact h
  | finishTurn =>
    simp only [applyCmd]
    rw [ids_congr (players_finishTurn g sh)]
    exact h
  | nextTurn =>
    simp only [applyCmd]
    rw [ids_congr (players_nextTurn g)]
    exact h
  | finishRound =>
    simp only [applyCmd]
    rw [ids_congr (players_finishRound g)]
    exact h
  | nextRound =>
    simp only [applyCmd]
    rw [ids_congr (players_nextRound g)]
    exact h
  | finish =>
    simp only [applyCmd]
    rw [ids_congr (players_finish g)]
    exact h
  | tick =>
    simp only [applyCmd]
    rw [ids_congr (players_tick g sh)]
    exact h

theorem ids_run_aux (sh : ShuffleFn) (cmds : List Cmd) (g : Game) (h : (ids g).Nodup) :
    (ids (cmds.foldl (fun a c => applyCmd sh a c) g)).Nodup := by
  induction cmds generalizing g with
  | nil => exact h
  | cons c t ih => exact ih (applyCmd sh g c) (ids_step sh c g h)

theorem ids_run_nodup (sh : ShuffleFn) (cmds : List Cmd) : (ids (run sh cmds)).Nodup :=
  ids_run_aux sh cmds Game.init List.nodup_nil

/-- Number of `playerReady` signals emitted so far for a given player id. -/
def countPR (g : Game) (i : Nat) : Nat := g.events.count (Ev.playerReady i)

theorem countPR_emit (g : Game) (e : Ev) (i : Nat) (he : ∀ j, e ≠ Ev.playerReady j) :
    countPR (g.emit e) i = countPR g i := by
  unfold countPR Game.emit
  dsimp only
  rw [List.count_append]
  have hbe : (e == Ev.playerReady i) = false := beq_eq_false_iff_ne.mpr (he i)
  simp [List.count_cons, hbe]

theorem countPR_finishRound (g : Game) (i : Nat) : countPR g.finishRound i = countPR g i := by
  unfold Game.finishRound
  rw [countPR_emit _ _ _ (fun j => by simp)]
  rfl

theorem countPR_finishTurn (g : Game) (sh : ShuffleFn) (i : Nat) :
    countPR (g.finishTurn sh) i = countPR g i := by
  unfold Game.finishTurn
  rw [countPR_emit _ _ _ (fun j => by simp)]
  rfl

theorem countPR_startRound (g : Game) (sh : ShuffleFn) (i : Nat) :
    countPR (g.startRound sh) i = countPR g i := by
  unfold Game.startRound
  split
  · rw [countPR_emit _ _ _ (fun j => by simp)]
    rfl
  · rfl

theorem countPR_step (sh : ShuffleFn) (c : Cmd) (g : Game) (i : Nat) :
    countPR (applyCmd sh g c) i = countPR g i := by
  cases c with
  | addPlayer u m =>
    simp only [applyCmd]
    unfold Game.addPlayer
    split
    · dsimp only
      rw [countPR_emit _ _ _ (fun j => by simp)]
      split <;> rfl
    · rfl
  | setPlayerName uid n =>
    simp only [applyCmd]
    unfold Game.setPlayerName
    split
    · rw [checkPlayerReady_eq, countPR_emit _ _ _ (fun j => by simp)]
      rfl
    · rfl
  | setFont uid fo =>
    simp only [applyCmd]
    unfold Game.setFont
    split
    · rw [countPR_emit _ _ _ (fun j => by simp)]
      rfl
    · rfl
  | removePlayer uid b =>
    simp only [applyCmd]
    unfold Game.removePlayer
    split
    · dsimp only
      split
      · rw [countPR_emit _ _ _ (fun j => by simp)]
        split <;> rfl
      · rw [countPR_emit _ _ _ (fun j => by simp)]
        split <;> rfl
    · rfl
  | setEntriesPerPlayer n =>
    simp only [applyCmd]
    unfold Game.setEntriesPerPlayer
    rw [countPR_emit _ _ _ (fun j => by simp)]
    rfl
  | addEntry uid e =>
    simp only [applyCmd]
    unfold Game.addEntry
    split
    · rw [checkPlayerReady_eq]
      rfl
    · rfl
  | addTeam t =>
    simp only [applyCmd]
    unfold Game.addTeam
    dsimp only
    rw [countPR_emit _ _ _ (fun j => by simp)]
    split <;> rfl
  | addPlayerToTeam uid tid =>
    simp only [applyCmd]
    unfold Game.addPlayerToTeam
    split
    · rw [countPR_emit _ _ _ (fun j => by simp)]
      rfl
    · rfl
  | removeTeam tid =>
    simp only [applyCmd]
    unfold Game.removeTeam
    split
    · rw [countPR_emit _ _ _ (fun j => by simp)]
      rfl
    · rfl
  | setTurnTime t =>
    simp only [applyCmd]
    unfold Game.setTurnTime
    rw [countPR_emit _ _ _ (fun j => by simp)]
    rfl
  | start =>
    simp only [applyCmd]
    unfold Game.start
    split
    · rw [countPR_startRound, countPR_emit _ _ _ (fun j => by simp)]
      rfl
    · rfl
  | startRound =>
    simp only [applyCmd]
    rw [countPR_startRound]
  | startTurn =>
    simp only [applyCmd]
    unfold Game.startTurn
    split
    · rw [countPR_emit _ _ _ (fun j => by simp)]
      rfl
    · rfl
  | nextEntry =>
    simp only [applyCmd]
    unfold Game.nextEntry
    rw [score_eq]
    simp only [jsArraySize, jsTruthyNum, Bool.false_eq_true, if_false]
    rw [countPR_finishRound]
    rfl
  | finishTurn =>
    simp only [applyCmd]
    rw [countPR_finishTurn]
  | nextTurn =>
    simp only [applyCmd]
    unfold Game.nextTurn Game._shiftTurn
    cases g.turnOrder <;> rfl
  | finishRound =>
    simp only [applyCmd]
    rw [countPR_finishRound]
  | nextRound =>
    simp only [applyCmd]
    unfold Game.nextRound
    rw [countPR_emit _ _ _ (fun j => by simp)]
    rfl
  | finish =>
    simp only [applyCmd]
    unfold Game.finish
    rw [countPR_emit _ _ _ (fun j => by simp)]
    rfl
  | tick =>
    simp only [applyCmd]
    unfold Game.tick
    split
    · dsimp only
      split
      · rw [countPR_finishTurn]
        rfl
      · rfl
    · rfl

theorem countPR_run_aux (sh : ShuffleFn) (cmds : List Cmd) (g : Game) (i : Nat) :
    countPR (cmds.foldl (fun a c => applyCmd sh a c) g) i = countPR g i := by
  induction cmds generalizing g with
  | nil => rfl
  | cons c t ih =>
    rw [List.foldl_cons, ih (applyCmd sh g c), countPR_step]

theorem countPR_run (sh : ShuffleFn) (cmds : List Cmd) (i : Nat) :
    countPR (run sh cmds) i = 0 :=
  countPR_run_aux sh cmds Game.init i

/-! Claim-level results. -/

/-- Concrete session for C1: one master player with a name, a team
assignment and exactly entries-per-player submitted entries, built through
the public commands. -/
def gC1 : Game :=
  ((((((Game.init.addPlayer { id := 1 } true).setEntriesPerPlayer 1).addTeam
      { id := 5 }).addPlayerToTeam 1 5).setPlayerName 1 "a").addEntry 1 "x").setTurnTime 30

/-- C1: the claim says `start()` moves the session from pending to started
iff every registered player is ready (name set, entry count equal to
entries-per-player) and has a team. In the code the readiness latch
`_playerIsReady` reads `user.entries.size`, which is `undefined` on a JS
Array (the code uses `.length` correctly elsewhere), so no player ever
becomes ready, `canStart` stays false, and `start()` leaves the session
unchanged even though all of the claim's conditions hold at `gC1`. -/
theorem C1_start_never_fires :
    (gC1.players.all fun u =>
        (u.name != "") && (u.entries.length == gC1.entriesPerPlayer) && u.teamId.isSome) = true ∧
    gC1.players.length = 1 ∧
    gC1.isStarted = false ∧
    gC1.start idShuffle = gC1 := by decide

/-- Concrete session for C2: team 7 sits at the front of the turn-order
queue and exactly one (the last) entry remains. -/
def gC2 : Game :=
  { teams := [{ id := 7 }], turnOrder := [⟨7, [1]⟩],
    entries := ["e1"], entriesRemaining := ["e1"],
    isStarted := true, roundStarted := true, turnStarted := true, turnTime := 30 }

/-- C2: the claim says every consumed entry credits `scorePerEntry` to the
pre-pop front team of the queue, in particular the very last entry. In the
code `_score` runs before the pop, but it looks up
`teams.get(this.activeTeam)` and `activeTeam` reads `turnOrder.size`
(`undefined` on an Array), so it is always null: consuming the last entry
pops the stack yet emits no `teamScored` and changes no score. -/
theorem C2_no_scoring :
    gC2.turnOrder = [⟨7, [1]⟩] ∧
    gC2.entriesRemaining = ["e1"] ∧
    gC2.nextEntry.teams = [{ id := 7, score := 0 }] ∧
    gC2.nextEntry.events.count (Ev.teamScored 7) = 0 ∧
    gC2.nextEntry.entriesRemaining = [] := by decide

/-- Concrete session for C3's counterexample: the master list holds two
entries, one of which has already been consumed this round. -/
def gC3 : Game :=
  { entries := ["a", "b"], entriesRemaining := ["a"],
    isStarted := true, roundStarted := true, turnTime := 30 }

/-- C3 counterexample: at turn finish the stack is repopulated from the
FULL master list, so the result is not a permutation of the entries that
were still remaining (the consumed "b" is resurrected); and a `nextEntry`
on an empty stack removes nothing rather than exactly one element. -/
theorem C3_counterexample :
    ¬ List.Perm ((gC3.finishTurn idShuffle).entriesRemaining) gC3.entriesRemaining ∧
    (gC3.finishTurn idShuffle).entriesRemaining = ["a", "b"] ∧
    ({ gC3 with entriesRemaining := [] } : Game).nextEntry.entriesRemaining.length = 0 := by
  decide

/-- C3 (amended): `nextEntry()` always pops exactly the top (last) element
of the remaining stack (a no-op pop when the stack is already empty); at
round start AND at each turn finish the stack is repopulated as a
permutation of the FULL master entry list - the turn-finish repopulation is
not restricted to the entries still remaining. -/
theorem C3_stack_behaviour (g : Game) (sh : ShuffleFn) (hsh : ShuffleOK sh) :
    g.nextEntry.entriesRemaining = g.entriesRemaining.dropLast ∧
    List.Perm ((g.finishTurn sh).entriesRemaining) g.entries ∧
    (g.canStartRound = true → List.Perm ((g.startRound sh).entriesRemaining) g.entries) := by
  refine ⟨?_, ?_, ?_⟩
  · unfold Game.nextEntry
    rw [score_eq]
    simp only [jsArraySize, jsTruthyNum, Bool.false_eq_true, if_false]
    rfl
  · exact hsh String g.entries
  · intro hc
    unfold Game.startRound
    rw [if_pos hc]
    exact hsh String g.entries

/-- Concrete startable session for C3's witness. -/
def gC3w : Game :=
  { entries := ["a", "b"], entriesRemaining := ["a"],
    isStarted := true, turnTime := 30, scorePerEntry := 1 }

/-- Witness for C3 at a concrete session and the identity shuffle. -/
theorem C3_stack_behaviour_w :
    gC3w.nextEntry.entriesRemaining = gC3w.entriesRemaining.dropLast ∧
    List.Perm ((gC3w.finishTurn idShuffle).entriesRemaining) gC3w.entries ∧
    List.Perm ((gC3w.startRound idShuffle).entriesRemaining) gC3w.entries := by
  have h := C3_stack_behaviour gC3w idShuffle shuffleOK_id
  exact ⟨h.1, h.2.1, h.2.2 (by decide)⟩

/-- Concrete session for C4: a two-team queue in a finished turn. -/
def gC4 : Game :=
  { turnOrder := [⟨1, [10, 11]⟩, ⟨2, [20]⟩],
    isStarted := true, roundStarted := true, turnStarted := true,
    turnFinished := true, turnTime := 30 }

/-- C4: the claim describes nextTurn as rotate-the-front-entry-and-requeue
with flag resets. In the code `_shiftTurn` calls `team.push(...)` on the
plain TurnOrderEntry object, which has no `push` method: every nextTurn on
a non-empty queue throws a TypeError after the front entry has been shifted
off, the rotated entry is never re-appended, and the flag resets and the
`nextTurn` signal are never reached. -/
theorem C4_nextTurn_throws :
    gC4.nextTurn.2 = some "TypeError: team.push is not a function" ∧
    gC4.nextTurn.1.turnOrder = [⟨2, [20]⟩] ∧
    gC4.nextTurn.1.turnStarted = true ∧
    gC4.nextTurn.1.turnFinished = true ∧
    gC4.nextTurn.1.events.count Ev.nextTurn = 0 := by decide

/-- Concrete session for C5: a queue with two entries. -/
def gC5 : Game :=
  { turnOrder := [⟨1, [10, 11]⟩, ⟨2, [20]⟩], isStarted := true, roundStarted := true }

/-- C5: the claim says the four projections read queue positions 0 and 1
when present and are null only on an empty queue. In the code each getter
tests `this.turnOrder.size`, which is `undefined` on an Array, so all four
return null even on this two-entry queue, where the claim demands team
1/player 10 (active) and team 2/player 20 (next). -/
theorem C5_getters_always_null :
    gC5.turnOrder.length = 2 ∧
    gC5.activeTeam = none ∧ gC5.activePlayer = none ∧
    gC5.nextTeam = none ∧ gC5.nextPlayer = none ∧
    (gC5.turnOrder[0]?).map TurnOrderEntry.teamId = some 1 ∧
    (gC5.turnOrder[1]?).map TurnOrderEntry.teamId = some 2 := by decide

/-- Concrete session for C6: a running turn whose countdown has two seconds
left and a pending interval. -/
def gC6 : Game :=
  { entries := ["a"], entriesRemaining := ["a"], isStarted := true,
    roundStarted := true, turnStarted := true, timerActive := true,
    turnTime := 2, turnTimeLeft := 2 }

/-- C6: the claim says a manual finishTurn cancels the still-pending
countdown before the transition completes, so the expiry path can never
fire a second turn-finish for the same turn. In the code `finishTurn`
contains no `clearInterval` (only the tick callback reaching zero and
`finishRound` clear the interval): after the manual finishTurn the interval
is still pending, keeps ticking, reaches zero and fires `finishTurn` again,
emitting a second `turnFinished` for the same turn. -/
theorem C6_timer_not_cancelled :
    (gC6.finishTurn idShuffle).timerActive = true ∧
    (gC6.finishTurn idShuffle).events.count Ev.turnFinished = 1 ∧
    (((gC6.finishTurn idShuffle).tick idShuffle).tick idShuffle).events.count
      Ev.turnFinished = 2 := by decide

/-- Concrete session for C7's counterexample. -/
def gC7 : Game :=
  { entries := ["a", "b"], entriesRemaining := ["b", "a"], isStarted := true,
    roundStarted := true, turnTime := 30 }

/-- C7 counterexample: calling finishTurn twice in a row does not have
effect only once - the second call changes the session again and emits a
second `turnFinished` signal, refuting the claimed idempotence. -/
theorem C7_counterexample :
    (gC7.finishTurn idShuffle).finishTurn idShuffle ≠ gC7.finishTurn idShuffle ∧
    ((gC7.finishTurn idShuffle).finishTurn idShuffle).events.count Ev.turnFinished = 2 := by
  decide

/-- C7 (amended): `finishTurn` has no guard, so a second consecutive call
is not a no-op: it repopulates the remaining stack from the master list
again and emits a second `turnFinished` signal; only the `turnFinished`
flag itself is left as the first call set it. -/
theorem C7_finishTurn_not_idempotent (g : Game) (sh : ShuffleFn) :
    ((g.finishTurn sh).finishTurn sh).turnFinished = true ∧
    ((g.finishTurn sh).finishTurn sh).events
      = g.events ++ [Ev.turnFinished, Ev.turnFinished] ∧
    ((g.finishTurn sh).finishTurn sh).entriesRemaining = sh g.entries := by
  refine ⟨rfl, ?_, rfl⟩
  show (g.events ++ [Ev.turnFinished]) ++ [Ev.turnFinished]
      = g.events ++ [Ev.turnFinished, Ev.turnFinished]
  rw [List.append_assoc]
  rfl

/-- The player whose id is removed and re-admitted in C8. -/
def uC8 : User := { id := 1 }

/-- Session with one (master) player, for C8. -/
def gC8a : Game := Game.init.addPlayer uC8 true

/-- Session after the forced removal of player 1, for C8. -/
def gC8b : Game := gC8a.removePlayer 1 false

/-- C8 counterexample: after a forced removal the id sits in the
removed-set, yet `addPlayer` re-admits the very same id and the session
state changes - refuting "addPlayer with an id present in the removed-set
leaves the session state unchanged". -/
theorem C8_counterexample :
    gC8b.removedPlayers = [1] ∧
    gC8b.players = [] ∧
    (gC8b.addPlayer uC8 false).players = [uC8] ∧
    gC8b.addPlayer uC8 false ≠ gC8b := by decide

/-- C8 (amended): in every session state reachable from a fresh session
player ids are unique in the registry, and `addPlayer` with an id already
present in the registry leaves the session unchanged; but `addPlayer` never
consults the removed-set: whenever the id is absent from the registry the
player is (re-)admitted, regardless of `removedPlayers`. -/
theorem C8_ids_unique_no_readd_check :
    (∀ (sh : ShuffleFn) (cmds : List Cmd), (ids (run sh cmds)).Nodup) ∧
    (∀ (g : Game) (u : User) (m : Bool),
       g.players.any (fun v => v.id == u.id) = true → g.addPlayer u m = g) ∧
    (∀ (g : Game) (u : User) (m : Bool),
       g.players.any (fun v => v.id == u.id) = false →
         (g.addPlayer u m).players = g.players ++ [u]) := by
  refine ⟨ids_run_nodup, ?_, ?_⟩
  · intro g u m h
    unfold Game.addPlayer
    split
    · rename_i hg
      rw [h] at hg
      exact absurd hg (by decide)
    · rfl
  · intro g u m h
    unfold Game.addPlayer
    split
    · dsimp only
      split <;> rfl
    · rename_i hg
      rw [h] at hg
      exact absurd rfl hg

/-- Command sequence for C8's witness: add, forcibly remove, re-add the
same id. -/
def cmdsC8 : List Cmd :=
  [Cmd.addPlayer { id := 1 } true, Cmd.removePlayer 1 false,
   Cmd.addPlayer { id := 1 } false]

/-- Witness for C8 at concrete inputs. -/
theorem C8_ids_unique_no_readd_check_w :
    (ids (run idShuffle cmdsC8)).Nodup ∧
    gC8a.addPlayer uC8 false = gC8a ∧
    (gC8b.addPlayer uC8 false).players = gC8b.players ++ [uC8] := by
  have h := C8_ids_unique_no_readd_check
  exact ⟨h.1 idShuffle cmdsC8, h.2.1 gC8a uC8 false (by decide),
         h.2.2 gC8b uC8 false (by decide)⟩

/-- Concrete session for C9: player 1 is the front player of the front
turn-order entry (the player whose turn it is) and the session master. -/
def gC9 : Game :=
  { players := [{ id := 1, name := "a" }, { id := 2, name := "b" }],
    master := some 1, teams := [{ id := 5 }],
    turnOrder := [⟨5, [1, 2]⟩], isStarted := true,
    roundStarted := true, turnStarted := true, turnTime := 30 }

/-- C9: the claim says removePlayer is a silent no-op when the target is
the currently active player. Player 1 is at the front of the front
turn-order entry - the active player the claim means - yet the code removes
them: the guard compares against the `activePlayer` getter, which always
returns null because it reads `turnOrder.size` (undefined on an Array), so
the protection never triggers. The remainder behaves as claimed: the
registry and every rotation list are purged and the master is reassigned to
a remaining player. -/
theorem C9_active_player_removed :
    (gC9.turnOrder[0]?).bind (fun t => t.players[0]?) = some 1 ∧
    gC9.activePlayer = none ∧
    (gC9.removePlayer 1 false).players.any (fun u => u.id == 1) = false ∧
    (gC9.removePlayer 1 false).turnOrder = [⟨5, [2]⟩] ∧
    (gC9.removePlayer 1 false).master = some 2 := by decide

/-- C10: the readiness flag latches and `playerReady` is emitted at most
once per player. (a) One step of any command maps a registered ready player
either to a still-ready registered player or out of the registry - no
operation ever resets `isReady` to false; in particular
`setEntriesPerPlayer` does not re-evaluate readiness. (b) Along every run
from a fresh session at most one `playerReady` per player id is emitted
(with the embedded `_playerIsReady` reading `entries.size`, none ever
is). -/
theorem C10_ready_latches :
    (∀ (sh : ShuffleFn) (c : Cmd) (g : Game) (i : Nat),
       readyOf g i = some true →
         readyOf (applyCmd sh g c) i = some true ∨ readyOf (applyCmd sh g c) i = none) ∧
    (∀ (sh : ShuffleFn) (cmds : List Cmd) (i : Nat),
       countPR (run sh cmds) i ≤ 1) := by
  refine ⟨readyOf_step, ?_⟩
  intro sh cmds i
  rw [countPR_run]
  exact Nat.zero_le 1

/-- Session with a ready player, for C10's witness. -/
def gC10 : Game := { players := [{ id := 3, name := "z", isReady := true }] }

/-- Witness for C10 at a concrete ready player and a concrete run. -/
theorem C10_ready_latches_w :
    (readyOf (applyCmd idShuffle gC10 (Cmd.setEntriesPerPlayer 5)) 3 = some true ∨
     readyOf (applyCmd idShuffle gC10 (Cmd.setEntriesPerPlayer 5)) 3 = none) ∧
    countPR (run idShuffle [Cmd.addPlayer { id := 3 } true, Cmd.setPlayerName 3 "z"]) 3 ≤ 1 := by
  have h := C10_ready_latches
  exact ⟨h.1 idShuffle (Cmd.setEntriesPerPlayer 5) gC10 3 (by decide),
         h.2 idShuffle [Cmd.addPlayer { id := 3 } true, Cmd.setPlayerName 3 "z"] 3⟩

end Briefjesspel
